import Mathlib

/-!
Shallow embedding of `heritage_oodb_sim.py`: a small museum-collection store
built on a `shelve` key-value file, with entity dataclasses, a store class
(`SimpleOODB`), relationship resolvers on `Artifact` and linear-scan queries.

Modelling conventions:
* The shelve backing file (with `writeback=True` its in-memory cache is the
  authoritative state between syncs) is an insertion-ordered association list
  `ShelfMap` from collection name to `Dict`; a Python dict is an association list
  (Python dicts preserve insertion order, and assignment to an existing key
  keeps its position), lookup returning `Option`.
* Stored values are the closed sum `Obj` of the entity dataclasses plus the
  string-to-string dict used by the `by_title` index.
* Python strings compare lexicographically by code point, which is exactly
  Lean's order on `String.toList`; we use the Boolean `pyStrLe` (definitionally
  `decide` of that order) so that everything evaluates.  `str.lower` is mapped
  over the characters (`pyLower`).
* Operations that can raise (`KeyError` on `self._shelf[collection]`,
  `AttributeError` on a missing attribute, `TypeError` on an unhashable dict
  key or item-assignment to a non-dict) return `Except PyErr` or pair the
  post-state with an optional `PyErr`; `sync` is a no-op on the cache.
* `sorted(xs, key=f)` is a stable sort on string keys; stable sorts agree on
  their output, so it is embedded as stable insertion sort `pySorted`.
-/

/-- Python `str.lower()` (character-wise lowercasing). -/
def pyLower (s : String) : String := ⟨s.data.map Char.toLower⟩

/-- Python string `<=`: lexicographic by code point, i.e. the order on the
character lists.  Boolean so that it evaluates by `decide`; it agrees with
Lean's `s ≤ t` (see `pyStrLe_iff`). -/
def pyStrLe (s t : String) : Bool := decide (s.toList ≤ t.toList)

/-- Helper for Python's substring test: does `n` start `h`? -/
def charsStart : List Char → List Char → Bool
  | [], _ => true
  | _ :: _, [] => false
  | a :: as, b :: bs => a = b && charsStart as bs

/-- Helper for Python's substring test: does `n` occur contiguously in `h`? -/
def charsSub (n : List Char) : List Char → Bool
  | [] => n.isEmpty
  | b :: bs => charsStart n (b :: bs) || charsSub n bs

/-- Python `needle in hay` on strings (contiguous substring; `""` is a
substring of everything). -/
def pyIn (needle hay : String) : Bool := charsSub needle.toList hay.toList

/-- Lookup in an insertion-ordered association list (Python `d.get(k)` /
`k in d`). -/
def alookup {β : Type} (k : String) : List (String × β) → Option β
  | [] => none
  | (a, v) :: l => if a = k then some v else alookup k l

/-- Assignment `d[k] = v` on an insertion-ordered association list: an
existing key keeps its position, a new key is appended. -/
def ainsert {β : Type} (k : String) (v : β) : List (String × β) → List (String × β)
  | [] => [(k, v)]
  | (a, w) :: l => if a = k then (a, v) :: l else (a, w) :: ainsert k v l

/-- Python `d.values()` in insertion order. -/
def avalues {β : Type} (l : List (String × β)) : List β := l.map Prod.snd

/-- Python `@dataclass Person`. -/
structure Person where
  person_id : String
  name : String
  role : Option String
deriving DecidableEq

/-- Python `@dataclass Institution`. -/
structure Institution where
  inst_id : String
  name : String
  address : Option String
deriving DecidableEq

/-- Python `@dataclass ArtifactVersion`.  The opaque `snapshot` blob is modelled as a
string map; no claim looks inside it. -/
structure ArtifactVersion where
  version_id : String
  timestamp : String
  notes : String
  snapshot : List (String × String)
deriving DecidableEq

/-- Python `@dataclass DigitalSurrogate`. -/
structure DigitalSurrogate where
  surrogate_id : String
  file_ref : String
  file_type : String
  derived_from_id : Option String
deriving DecidableEq

/-- Python `@dataclass ConservationRecord`. -/
structure ConservationRecord where
  record_id : String
  date : String
  restorer_id : String
  treatment : String
  before_surrogates : List String
  after_surrogates : List String
deriving DecidableEq

/-- Python `@dataclass Loan` (`status` is one of the strings PENDING, ACTIVE,
COMPLETED, not enforced). -/
structure Loan where
  loan_id : String
  artifact_id : String
  from_inst : String
  to_inst : String
  start_date : String
  end_date : String
  status : String
deriving DecidableEq

/-- Python `@dataclass Artifact`.  `dimensions` and the `provenance` entries are
opaque blobs modelled as string maps; no claim looks inside them. -/
structure Artifact where
  artifact_id : String
  title : String
  creator : String
  date_created : String
  material : Option String
  dimensions : Option (List (String × String))
  provenance : List (List (String × String))
  versions : List ArtifactVersion
  digital_surrogates : List String
  conservation_records : List String
  loans : List String
deriving DecidableEq

/-- A value stored in a collection: one of the entity dataclasses, or the
string-to-string dict held under `by_title` in the `indexes` collection. -/
inductive Obj where
  | person (p : Person)
  | institution (i : Institution)
  | surrogate (d : DigitalSurrogate)
  | conservation (c : ConservationRecord)
  | loan (l : Loan)
  | artifact (a : Artifact)
  | strMap (m : List (String × String))
deriving DecidableEq

/-- A collection: Python dict from identifier to stored value. -/
abbrev Dict : Type := List (String × Obj)

/-- The shelve state: collection name to collection. -/
abbrev ShelfMap : Type := List (String × Dict)

/-- Python exceptions that the embedded code can raise. -/
inductive PyErr where
  | keyError
  | attributeError
  | typeError
deriving DecidableEq

/-- Python truthiness of a stored value: dataclass instances are always
truthy; a dict is truthy iff it is non-empty. -/
def Obj.truthy : Obj → Bool
  | .strMap m => !m.isEmpty
  | _ => true

/-- Attribute access `o.title`: only `Artifact` has a `title` field; on
anything else it raises `AttributeError`. -/
def Obj.titleAttr : Obj → Except PyErr String
  | .artifact a => .ok a.title
  | _ => .error .attributeError

/-- Using a stored value as a `ConservationRecord` (the sort key reads
`c.date`): anything else raises `AttributeError`. -/
def Obj.asConservation : Obj → Except PyErr ConservationRecord
  | .conservation c => .ok c
  | _ => .error .attributeError

/-- Stable insertion of `x` into a list already sorted by `key`: `x` goes
after every element whose key is `<=` its own. -/
def pyInsert {α : Type} (key : α → String) (x : α) : List α → List α
  | [] => [x]
  | y :: l => if pyStrLe (key x) (key y) then x :: y :: l else y :: pyInsert key x l

/-- Embedding of `sorted(xs, key=f)` for a string-valued key: Python's sort is stable, and
every stable sort with the same total key comparison returns the same list,
so it is embedded as stable insertion sort. -/
def pySorted {α : Type} (key : α → String) : List α → List α
  | [] => []
  | x :: l => pyInsert key x (pySorted key l)

/-- Method `Artifact.current_version`:
`return sorted(self.versions, key=lambda v: v.timestamp)[-1]` after the
`if not self.versions: return None` guard. -/
def Artifact.current_version (a : Artifact) : Option ArtifactVersion :=
  if a.versions.isEmpty then none
  else (pySorted (fun v => v.timestamp) a.versions).getLast?

/-- The loop body of `Artifact.is_on_loan`, with `store` the raw shelf
mapping (dict), so `store.get('loans', {})` is a dict `get` with default:
`loan = store.get('loans', {}).get(loan_id)`;
`if loan and loan.status == 'ACTIVE': return True, loan`. -/
def is_on_loan_go (store : ShelfMap) : List String → Except PyErr (Bool × Option Loan)
  | [] => .ok (false, none)
  | lid :: rest =>
    match alookup lid ((alookup "loans" store).getD []) with
    | none => is_on_loan_go store rest
    | some o =>
      if o.truthy then
        match o with
        | .loan l => if l.status = "ACTIVE" then .ok (true, some l) else is_on_loan_go store rest
        | _ => .error .attributeError
      else is_on_loan_go store rest

/-- Method `Artifact.is_on_loan(self, store)` with `store` the raw shelf mapping
(the demo passes `store._shelf`).  On a hit Python returns the stored loan
object itself; it is always a `Loan`, returned here as such. -/
def Artifact.is_on_loan (a : Artifact) (store : ShelfMap) : Except PyErr (Bool × Option Loan) :=
  is_on_loan_go store a.loans

/-- Reading each element of a list of stored values as a `ConservationRecord`
in order, raising at the first that is not one (as the key extraction of
`sorted(crs, key=lambda c: c.date)` does). -/
def asConservationList : List Obj → Except PyErr (List ConservationRecord)
  | [] => .ok []
  | o :: rest => do
    let c ← o.asConservation
    let cs ← asConservationList rest
    .ok (c :: cs)

/-- The flat dict returned by `Artifact.display_status`. -/
structure StatusDict where
  artifact_id : String
  title : String
  on_loan : Bool
  loan_ref : Option String
  current_version : Option String
  last_conservation : Option String
deriving DecidableEq

/-- Method `Artifact.display_status(self, store)` with `store` the raw shelf
mapping.  The conservation comprehension resolves each reference with
`store.get('conservations', {}).get(cid)`, drops falsy results, and takes
`sorted(crs, key=lambda c: c.date)[-1]`; the sort key raises unless every
surviving value is a `ConservationRecord`. -/
def Artifact.display_status (a : Artifact) (store : ShelfMap) : Except PyErr StatusDict := do
  let onloanPair ← a.is_on_loan store
  let cv := a.current_version
  let lastCons ←
    if a.conservation_records.isEmpty then pure (none : Option ConservationRecord)
    else
      let crs := a.conservation_records.map
        (fun cid => alookup cid ((alookup "conservations" store).getD []))
      let crs := (crs.filterMap id).filter Obj.truthy
      if crs.isEmpty then pure none
      else do
        let recs ← asConservationList crs
        pure ((pySorted (fun c => c.date) recs).getLast?)
  pure { artifact_id := a.artifact_id
         title := a.title
         on_loan := onloanPair.1
         loan_ref := onloanPair.2.map (fun l => l.loan_id)
         current_version := cv.map (fun v => v.version_id)
         last_conservation := lastCons.map (fun c => c.record_id) }

/-- The seven fixed collection names of `SimpleOODB._open_db`. -/
def collectionNames : List String :=
  ["artifacts", "digital", "people", "institutions", "loans", "conservations", "indexes"]

/-- One iteration of the `_open_db` loop:
`if col not in self._shelf: self._shelf[col] = {}`. -/
def ensureCol (acc : ShelfMap) (col : String) : ShelfMap :=
  if (alookup col acc).isNone then ainsert col [] acc else acc

/-- Method `SimpleOODB._open_db` acting on the persisted contents: ensure each fixed
collection exists (defaulting to the empty dict), then ensure the `by_title`
index exists inside `indexes`. -/
def open_db (s : ShelfMap) : ShelfMap :=
  let s1 := collectionNames.foldl ensureCol s
  match alookup "indexes" s1 with
  | none => s1
  | some idx =>
    if (alookup "by_title" idx).isNone then
      ainsert "indexes" (ainsert "by_title" (Obj.strMap []) idx) s1
    else s1

/-- The `key` argument of `SimpleOODB.get`: omitted (`None`), a string, or —
as in the resolvers' `store.get('loans', {})` when `store` is the `SimpleOODB`
object — a dict, which is unhashable. -/
inductive GetKey where
  | noKey
  | str (k : String)
  | dict
deriving DecidableEq

/-- What `SimpleOODB.get` returns: a single record (or `None`), or the whole
collection dict. -/
inductive GetResult where
  | record (o : Option Obj)
  | whole (d : Dict)
deriving DecidableEq

/-- Method `SimpleOODB.get(self, collection, key=None)`:
`col = self._shelf.get(collection, {})`; with no key return `col`, else
`col.get(key)`.  `col.get` on an unhashable dict key raises `TypeError`. -/
def SimpleOODB.get (s : ShelfMap) (collection : String) (key : GetKey) : Except PyErr GetResult :=
  let col := (alookup collection s).getD []
  match key with
  | .noKey => .ok (.whole col)
  | .str k => .ok (.record (alookup k col))
  | .dict => .error .typeError

/-- Method `SimpleOODB.put(self, collection, key, obj)`, returning the post-state of
the shelf cache together with the exception raised, if any:
`self._shelf[collection][key] = obj` raises `KeyError` on a missing
collection (state unchanged); for `collection == 'artifacts'`,
`idx = self._shelf['indexes'].setdefault('by_title', {})` runs next (its
effect persists even if a later step raises), then
`idx[obj.title.lower()] = key` raises `AttributeError` when `obj` has no
`title`, or `TypeError` when the stored `by_title` value is not a dict.
`self.save()` only syncs the cache. -/
def SimpleOODB.put (s : ShelfMap) (collection key : String) (obj : Obj) : ShelfMap × Option PyErr :=
  match alookup collection s with
  | none => (s, some .keyError)
  | some col =>
    let s1 := ainsert collection (ainsert key obj col) s
    if collection = "artifacts" then
      match alookup "indexes" s1 with
      | none => (s1, some .keyError)
      | some idxCol =>
        let idxCol1 :=
          if (alookup "by_title" idxCol).isNone then ainsert "by_title" (Obj.strMap []) idxCol
          else idxCol
        let s2 := ainsert "indexes" idxCol1 s1
        match obj.titleAttr with
        | .error e => (s2, some e)
        | .ok t =>
          match (alookup "by_title" idxCol1).getD (Obj.strMap []) with
          | .strMap m =>
            (ainsert "indexes" (ainsert "by_title" (Obj.strMap (ainsert (pyLower t) key m)) idxCol1) s2,
             none)
          | _ => (s2, some .typeError)
    else (s1, none)

/-- The scan of `SimpleOODB.query_artifacts_by_material`:
`[a for a in self._shelf['artifacts'].values()
   if a.material and material.lower() in a.material.lower()]`.
`a.material` raises on a non-artifact; `None` and `""` are falsy. -/
def materialScan (material : String) : List Obj → Except PyErr (List Obj)
  | [] => .ok []
  | o :: rest =>
    match o with
    | .artifact a =>
      match a.material with
      | none => materialScan material rest
      | some mat =>
        if mat = "" then materialScan material rest
        else if pyIn (pyLower material) (pyLower mat) then do
          let r ← materialScan material rest
          .ok (o :: r)
        else materialScan material rest
    | _ => .error .attributeError

/-- Method `SimpleOODB.query_artifacts_by_material(self, material)`:
`self._shelf['artifacts']` raises `KeyError` when absent. -/
def SimpleOODB.query_artifacts_by_material (s : ShelfMap) (material : String) :
    Except PyErr (List Obj) :=
  match alookup "artifacts" s with
  | none => .error .keyError
  | some col => materialScan material (avalues col)

/-- The loop of `Artifact.is_on_loan` when `store` is the `SimpleOODB`
object itself: each iteration evaluates `store.get('loans', {})`, which is
`SimpleOODB.get` with the dict `{}` as `key` and raises `TypeError` before
`.get(loan_id)` can run (the `.ok` branch is unreachable since a dict key
always raises). -/
def is_on_loan_oodb_go (s : ShelfMap) : List String → Except PyErr (Bool × Option Loan)
  | [] => .ok (false, none)
  | _ :: _ =>
    match SimpleOODB.get s "loans" .dict with
    | .error e => .error e
    | .ok _ => .error .typeError

/-- Method `Artifact.is_on_loan(self, store)` with `store = ` the `SimpleOODB`
object instead of its raw `_shelf` mapping. -/
def Artifact.is_on_loan_oodb (a : Artifact) (s : ShelfMap) : Except PyErr (Bool × Option Loan) :=
  is_on_loan_oodb_go s a.loans

/-- The conservation comprehension of `Artifact.display_status` when `store`
is the `SimpleOODB` object: each iteration evaluates
`store.get('conservations', {})`, which raises `TypeError` (the `.ok` branch
is unreachable since a dict key always raises). -/
def cons_oodb_go (s : ShelfMap) : List String → Except PyErr (List (Option Obj))
  | [] => .ok []
  | _ :: _ =>
    match SimpleOODB.get s "conservations" .dict with
    | .error e => .error e
    | .ok _ => .error .typeError

/-- Method `Artifact.display_status(self, store)` with `store = ` the `SimpleOODB`
object instead of its raw `_shelf` mapping. -/
def Artifact.display_status_oodb (a : Artifact) (s : ShelfMap) : Except PyErr StatusDict := do
  let onloanPair ← a.is_on_loan_oodb s
  let cv := a.current_version
  let lastCons ←
    if a.conservation_records.isEmpty then pure (none : Option ConservationRecord)
    else do
      let crs ← cons_oodb_go s a.conservation_records
      let crs := (crs.filterMap id).filter Obj.truthy
      if crs.isEmpty then pure none
      else do
        let recs ← asConservationList crs
        pure ((pySorted (fun c => c.date) recs).getLast?)
  pure { artifact_id := a.artifact_id
         title := a.title
         on_loan := onloanPair.1
         loan_ref := onloanPair.2.map (fun l => l.loan_id)
         current_version := cv.map (fun v => v.version_id)
         last_conservation := lastCons.map (fun c => c.record_id) }

/-- The title index: the value stored under `by_title` in the `indexes`
collection (`None` when either level is missing). -/
def titleIndex (s : ShelfMap) : Option Obj :=
  (alookup "indexes" s).bind (fun idx => alookup "by_title" idx)

/-- Looking a lower-cased title up in the title index. -/
def titleLookup (s : ShelfMap) (t : String) : Option String :=
  match titleIndex s with
  | some (.strMap m) => alookup t m
  | _ => none

/-- Resolving a loan reference against the loans collection, as the claims
describe it: `none` when the reference dangles or the stored value is not a
`Loan`. -/
def resolveLoan (s : ShelfMap) (lid : String) : Option Loan :=
  match alookup lid ((alookup "loans" s).getD []) with
  | some (Obj.loan l) => some l
  | _ => none

/-- Resolving a conservation reference against the conservations collection:
`none` when the reference dangles or the stored value is not a
`ConservationRecord`. -/
def resolveConservation (s : ShelfMap) (cid : String) : Option ConservationRecord :=
  match alookup cid ((alookup "conservations" s).getD []) with
  | some (Obj.conservation c) => some c
  | _ => none

/-- The element of a list with the greatest key, ties resolved to the
occurrence latest in the list (the value `sorted(_, key=f)[-1]` picks). -/
def lastMaxBy {α : Type} (key : α → String) : List α → Option α
  | [] => none
  | x :: l =>
    match lastMaxBy key l with
    | none => some x
    | some m => some (if pyStrLe (key x) (key m) then m else x)

/-- Every value stored in a dict is a `Loan`. -/
def allLoans (d : Dict) : Bool :=
  d.all (fun kv => match kv.2 with | Obj.loan _ => true | _ => false)

/-- Every value stored in a dict is a `ConservationRecord`. -/
def allConservations (d : Dict) : Bool :=
  d.all (fun kv => match kv.2 with | Obj.conservation _ => true | _ => false)

/-- Every value stored in a dict is an `Artifact`. -/
def allArtifacts (d : Dict) : Bool :=
  d.all (fun kv => match kv.2 with | Obj.artifact _ => true | _ => false)

/-- The `by_title` slot of the shelf is absent or holds a dict (as every
store the program itself builds satisfies). -/
def byTitleOk (s : ShelfMap) : Bool :=
  match titleIndex s with
  | none => true
  | some (.strMap _) => true
  | some _ => false

/-- One `put` call, keeping only the post-state (used to describe shelves
reachable by running the program). -/
def applyPut (s : ShelfMap) (op : String × String × Obj) : ShelfMap :=
  (SimpleOODB.put s op.1 op.2.1 op.2.2).1

/-- The shelf of a freshly created store file after any sequence of `put`
calls: `SimpleOODB()` on a new file runs `_open_db` on an empty shelf. -/
def reachableShelf (ops : List (String × String × Obj)) : ShelfMap :=
  ops.foldl applyPut (open_db [])

/-- The loan the claims describe `is_on_loan` as returning: resolve the
references in list order, drop the dangling ones, take the first whose
status is ACTIVE. -/
def activeLoanSpec (s : ShelfMap) (lids : List String) : Option Loan :=
  (lids.filterMap (resolveLoan s)).find? (fun l => decide (l.status = "ACTIVE"))

/-- The resolvable conservation records of an artifact, in reference order. -/
def consListSpec (s : ShelfMap) (cids : List String) : List ConservationRecord :=
  cids.filterMap (resolveConservation s)

/-- The flat record the claims describe `display_status` as returning. -/
def display_status_spec (a : Artifact) (s : ShelfMap) : StatusDict :=
  let active := activeLoanSpec s a.loans
  { artifact_id := a.artifact_id
    title := a.title
    on_loan := active.isSome
    loan_ref := active.map (fun l => l.loan_id)
    current_version := a.current_version.map (fun v => v.version_id)
    last_conservation :=
      (lastMaxBy (fun c => c.date) (consListSpec s a.conservation_records)).map
        (fun c => c.record_id) }

/-- The Boolean test the amended C7 describes: material present, non-empty,
and containing the query as a case-insensitive substring. -/
def materialMatch (m : String) (o : Obj) : Bool :=
  match o with
  | Obj.artifact a =>
    match a.material with
    | some mat => decide (mat ≠ "") && pyIn (pyLower m) (pyLower mat)
    | none => false
  | _ => false

/-! ### Concrete inputs for the examples named in the claims -/

/-- An artifact with empty lists and no optional fields, the base of the
concrete examples. -/
def baseArtifact : Artifact :=
  { artifact_id := "art_base", title := "Untitled", creator := "Unknown",
    date_created := "1800-01-01", material := none, dimensions := none,
    provenance := [], versions := [], digital_surrogates := [],
    conservation_records := [], loans := [] }

/-- The spec example: versions timestamped t1, t3, t2, inserted in that
order. -/
def exVersionsArtifact : Artifact :=
  { baseArtifact with
    artifact_id := "art_v"
    versions :=
      [{ version_id := "ver1", timestamp := "t1", notes := "", snapshot := [] },
       { version_id := "ver2", timestamp := "t3", notes := "", snapshot := [] },
       { version_id := "ver3", timestamp := "t2", notes := "", snapshot := [] }] }

def exLoanCompleted : Loan :=
  { loan_id := "loan_c", artifact_id := "art_l", from_inst := "i1", to_inst := "i2",
    start_date := "2023-01-01", end_date := "2023-02-01", status := "COMPLETED" }

def exLoanActive1 : Loan :=
  { loan_id := "loan_a1", artifact_id := "art_l", from_inst := "i1", to_inst := "i2",
    start_date := "2024-01-10", end_date := "2024-04-10", status := "ACTIVE" }

def exLoanActive2 : Loan :=
  { loan_id := "loan_a2", artifact_id := "art_l", from_inst := "i2", to_inst := "i1",
    start_date := "2024-02-01", end_date := "2024-05-01", status := "ACTIVE" }

def exCons1 : ConservationRecord :=
  { record_id := "cons1", date := "2023-08-15", restorer_id := "p1",
    treatment := "cleaning", before_surrogates := [], after_surrogates := [] }

def exCons2 : ConservationRecord :=
  { record_id := "cons2", date := "2024-01-02", restorer_id := "p1",
    treatment := "varnish removal", before_surrogates := [], after_surrogates := [] }

/-- A shelf whose loans collection holds one COMPLETED and two ACTIVE loans
and whose conservations collection holds two records. -/
def exResolverShelf : ShelfMap :=
  [("loans",
    [("loan_c", Obj.loan exLoanCompleted),
     ("loan_a1", Obj.loan exLoanActive1),
     ("loan_a2", Obj.loan exLoanActive2)]),
   ("conservations",
    [("cons1", Obj.conservation exCons1),
     ("cons2", Obj.conservation exCons2)])]

/-- An artifact whose loan list starts with a dangling reference, then a
COMPLETED loan, then two ACTIVE loans, and whose conservation list has one
dangling and two resolvable references. -/
def exResolverArtifact : Artifact :=
  { exVersionsArtifact with
    artifact_id := "art_l"
    loans := ["ghost", "loan_c", "loan_a1", "loan_a2"]
    conservation_records := ["lost", "cons2", "cons1"] }

def exOilArtifact : Artifact :=
  { baseArtifact with
    artifact_id := "art_oil"
    title := "Portrait of Marina"
    material := some "oil on canvas" }

def exTemperaArtifact : Artifact :=
  { baseArtifact with
    artifact_id := "art_t"
    title := "Icon"
    material := some "tempera" }

/-- The spec example collection for the material query: one artifact with
material oil on canvas, one with tempera. -/
def exQueryShelf : ShelfMap :=
  [("artifacts",
    [("art_oil", Obj.artifact exOilArtifact),
     ("art_t", Obj.artifact exTemperaArtifact)])]

/-- An artifact whose material is present but is the empty string. -/
def exEmptyMaterialArtifact : Artifact :=
  { baseArtifact with
    artifact_id := "art_e"
    material := some "" }

def exEmptyMaterialShelf : ShelfMap :=
  [("artifacts", [("art_e", Obj.artifact exEmptyMaterialArtifact)])]

/-! ### Basic facts about the embedded Python primitives -/

theorem pyStrLe_iff {s t : String} : pyStrLe s t = true ↔ s ≤ t := by
  simp [pyStrLe, String.le_iff_toList_le]

theorem pyStrLe_eq_false_iff {s t : String} : pyStrLe s t = false ↔ t < s := by
  rw [← Bool.not_eq_true, pyStrLe_iff]
  exact not_le

theorem alookup_ainsert_self {β : Type} (k : String) (v : β) :
    ∀ l : List (String × β), alookup k (ainsert k v l) = some v
  | [] => by simp [ainsert, alookup]
  | (a, w) :: l => by
    by_cases h : a = k
    · simp [ainsert, h, alookup]
    · simp [ainsert, h, alookup, alookup_ainsert_self k v l]

theorem alookup_ainsert_ne {β : Type} {c k : String} (v : β) (h : c ≠ k) :
    ∀ l : List (String × β), alookup c (ainsert k v l) = alookup c l
  | [] => by
    have hkc : k ≠ c := Ne.symm h
    simp [ainsert, alookup, hkc]
  | (a, w) :: l => by
    by_cases hak : a = k
    · subst hak
      have hac : ¬ a = c := fun hh => h (hh.symm)
      simp [ainsert, alookup, hac]
    · by_cases hac : a = c
      · subst hac
        simp [ainsert, hak, alookup]
      · simp [ainsert, hak, alookup, hac, alookup_ainsert_ne v h l]

theorem alookup_mem {β : Type} {k : String} {v : β} :
    ∀ {l : List (String × β)}, alookup k l = some v → (k, v) ∈ l
  | [], h => by simp [alookup] at h
  | (a, w) :: l, h => by
    by_cases hak : a = k
    · subst hak
      rw [alookup, if_pos rfl] at h
      cases h
      exact List.mem_cons_self _ _
    · rw [alookup, if_neg hak] at h
      exact List.mem_cons_of_mem _ (alookup_mem h)

theorem alookup_ainsert_of_ne {β : Type} {c k : String} (h : c ≠ k) (v : β)
    (l : List (String × β)) : alookup c (ainsert k v l) = alookup c l :=
  alookup_ainsert_ne v h l

theorem alookup_isNone_ainsert {β : Type} {c k : String} (v : β) (hne : c ≠ k) :
    ∀ {l : List (String × β)}, alookup c l = none → alookup c (ainsert k v l) = none := by
  intro l h
  rw [alookup_ainsert_ne v hne l]
  exact h

/-! ### The stable sort: `sorted(xs, key=f)[-1]` picks the last maximum -/

theorem mem_pyInsert {α : Type} (key : α → String) (x : α) :
    ∀ {l : List α} {z : α}, z ∈ pyInsert key x l ↔ z = x ∨ z ∈ l
  | [], z => by simp [pyInsert]
  | y :: l, z => by
    by_cases h : pyStrLe (key x) (key y)
    · simp [pyInsert, h]
    · simp only [pyInsert, if_neg h, List.mem_cons, @mem_pyInsert _ key x l z]
      tauto

theorem pairwise_pyInsert {α : Type} (key : α → String) (x : α) :
    ∀ {l : List α}, l.Pairwise (fun a b => key a ≤ key b) →
      (pyInsert key x l).Pairwise (fun a b => key a ≤ key b)
  | [], _ => by simp [pyInsert]
  | y :: l, h => by
    rw [List.pairwise_cons] at h
    by_cases hxy : pyStrLe (key x) (key y)
    · have hxy' : key x ≤ key y := pyStrLe_iff.mp hxy
      rw [pyInsert, if_pos hxy]
      refine List.Pairwise.cons ?_ (List.Pairwise.cons h.1 h.2)
      intro z hz
      rcases List.mem_cons.mp hz with hz | hz
      · exact hz ▸ hxy'
      · exact le_trans hxy' (h.1 z hz)
    · have hyx : key y < key x := pyStrLe_eq_false_iff.mp (Bool.eq_false_iff.mpr hxy)
      rw [pyInsert, if_neg hxy]
      refine List.Pairwise.cons ?_ (pairwise_pyInsert key x h.2)
      intro z hz
      rcases (mem_pyInsert key x).mp hz with hz | hz
      · exact hz ▸ le_of_lt hyx
      · exact h.1 z hz

theorem getLast?_cons_le {α : Type} (key : α → String) :
    ∀ (l : List α) (y : α), (y :: l).Pairwise (fun a b => key a ≤ key b) →
      ∀ m, (y :: l).getLast? = some m → key y ≤ key m
  | [], y, _, m, hm => by
    simp only [List.getLast?_singleton, Option.some.injEq] at hm
    exact hm ▸ le_refl _
  | z :: l, y, h, m, hm => by
    rw [List.getLast?_cons_cons] at hm
    rw [List.pairwise_cons] at h
    have hzm : key z ≤ key m := getLast?_cons_le key l z h.2 m hm
    exact le_trans (h.1 z (List.mem_cons_self _ _)) hzm

theorem getLast?_pyInsert {α : Type} (key : α → String) (x : α) :
    ∀ (l : List α), l.Pairwise (fun a b => key a ≤ key b) →
      (pyInsert key x l).getLast? =
        some (match l.getLast? with
              | none => x
              | some m => if pyStrLe (key x) (key m) then m else x)
  | [], _ => rfl
  | y :: l, h => by
    by_cases hxy : pyStrLe (key x) (key y)
    · rw [pyInsert, if_pos hxy]
      cases hm : (y :: l).getLast? with
      | none => exact absurd (List.getLast?_eq_none_iff.mp hm) (by simp)
      | some m =>
        have hym : key y ≤ key m := getLast?_cons_le key l y h m hm
        have hxm : pyStrLe (key x) (key m) = true :=
          pyStrLe_iff.mpr (le_trans (pyStrLe_iff.mp hxy) hym)
        rw [List.getLast?_cons_cons, hm]
        simp [hxm]
    · rw [pyInsert, if_neg hxy]
      rw [List.pairwise_cons] at h
      cases l with
      | nil =>
        show (y :: pyInsert key x []).getLast? = _
        rw [pyInsert]
        simp [hxy]
      | cons z l =>
        have ih := getLast?_pyInsert key x (z :: l) h.2
        rw [List.getLast?_cons_cons, List.getLast?_cons, ih, Option.getD_some]

theorem pairwise_pySorted {α : Type} (key : α → String) :
    ∀ l : List α, (pySorted key l).Pairwise (fun a b => key a ≤ key b)
  | [] => List.Pairwise.nil
  | x :: l => pairwise_pyInsert key x (pairwise_pySorted key l)

theorem getLast?_pySorted {α : Type} (key : α → String) :
    ∀ l : List α, (pySorted key l).getLast? = lastMaxBy key l
  | [] => rfl
  | x :: l => by
    have h := getLast?_pyInsert key x (pySorted key l) (pairwise_pySorted key l)
    rw [pySorted, h, getLast?_pySorted key l, lastMaxBy]
    cases lastMaxBy key l <;> rfl

theorem lastMaxBy_eq_none_iff {α : Type} (key : α → String) :
    ∀ {l : List α}, lastMaxBy key l = none ↔ l = []
  | [] => by simp [lastMaxBy]
  | x :: l => by
    rw [lastMaxBy]
    cases lastMaxBy key l <;> simp

theorem lastMaxBy_mem {α : Type} (key : α → String) :
    ∀ {l : List α} {v : α}, lastMaxBy key l = some v → v ∈ l
  | [], v, h => by simp [lastMaxBy] at h
  | x :: l, v, h => by
    rw [lastMaxBy] at h
    cases hm : lastMaxBy key l with
    | none =>
      rw [hm] at h
      cases h
      exact List.mem_cons_self _ _
    | some m =>
      rw [hm] at h
      cases h
      by_cases hx : pyStrLe (key x) (key m)
      · rw [if_pos hx]
        exact List.mem_cons_of_mem _ (lastMaxBy_mem key hm)
      · rw [if_neg hx]
        exact List.mem_cons_self _ _

theorem lastMaxBy_ge {α : Type} (key : α → String) :
    ∀ {l : List α} {v : α}, lastMaxBy key l = some v → ∀ w ∈ l, key w ≤ key v
  | [], v, h => by simp [lastMaxBy] at h
  | x :: l, v, h => by
    rw [lastMaxBy] at h
    cases hm : lastMaxBy key l with
    | none =>
      rw [hm] at h
      cases h
      have hl : l = [] := (lastMaxBy_eq_none_iff key).mp hm
      subst hl
      intro w hw
      rcases List.mem_cons.mp hw with hw | hw
      · exact hw ▸ le_refl _
      · simp at hw
    | some m =>
      rw [hm] at h
      cases h
      intro w hw
      rcases List.mem_cons.mp hw with hw | hw
      · subst hw
        by_cases hx : pyStrLe (key w) (key m)
        · rw [if_pos hx]
          exact pyStrLe_iff.mp hx
        · rw [if_neg hx]
      · have hwm : key w ≤ key m := lastMaxBy_ge key hm w hw
        by_cases hx : pyStrLe (key x) (key m)
        · rw [if_pos hx]
          exact hwm
        · rw [if_neg hx]
          have hmx : key m < key x := pyStrLe_eq_false_iff.mp (Bool.eq_false_iff.mpr hx)
          exact le_of_lt (lt_of_le_of_lt hwm hmx)

theorem lastMaxBy_filter {α : Type} (key : α → String) :
    ∀ {l : List α} {v : α}, lastMaxBy key l = some v →
      (l.filter (fun w => decide (key w = key v))).getLast? = some v
  | [], v, h => by simp [lastMaxBy] at h
  | x :: l, v, h => by
    rw [lastMaxBy] at h
    cases hm : lastMaxBy key l with
    | none =>
      rw [hm] at h
      cases h
      have hl : l = [] := (lastMaxBy_eq_none_iff key).mp hm
      subst hl
      simp
    | some m =>
      rw [hm] at h
      cases h
      by_cases hx : pyStrLe (key x) (key m)
      · rw [if_pos hx]
        have ihm := lastMaxBy_filter key hm
        rw [List.filter_cons]
        by_cases hxm : key x = key m
        · rw [if_pos (by simp [hxm])]
          rw [List.getLast?_cons, ihm]
          rfl
        · rw [if_neg (by simp [hxm])]
          exact ihm
      · rw [if_neg hx]
        have hmx : key m < key x := pyStrLe_eq_false_iff.mp (Bool.eq_false_iff.mpr hx)
        rw [List.filter_cons, if_pos (by simp)]
        have hnil : l.filter (fun w => decide (key w = key x)) = [] := by
          rw [List.filter_eq_nil_iff]
          intro w hw
          have hwm : key w ≤ key m := lastMaxBy_ge key hm w hw
          simp only [decide_eq_true_eq]
          exact fun hh => absurd (hh ▸ hwm) (not_le.mpr hmx)
        rw [hnil]
        rfl

/-! ### The resolvers against their claimed descriptions -/

theorem allLoans_lookup {s : ShelfMap} (h : allLoans ((alookup "loans" s).getD []) = true)
    {lid : String} {o : Obj} (hl : alookup lid ((alookup "loans" s).getD []) = some o) :
    ∃ l, o = Obj.loan l := by
  have hmem := alookup_mem hl
  have hp := List.all_eq_true.mp h _ hmem
  cases o <;> simp_all [allLoans]

theorem allConservations_lookup {s : ShelfMap}
    (h : allConservations ((alookup "conservations" s).getD []) = true)
    {cid : String} {o : Obj} (hl : alookup cid ((alookup "conservations" s).getD []) = some o) :
    ∃ c, o = Obj.conservation c := by
  have hmem := alookup_mem hl
  have hp := List.all_eq_true.mp h _ hmem
  cases o <;> simp_all [allConservations]

theorem is_on_loan_go_eq (s : ShelfMap) (h : allLoans ((alookup "loans" s).getD []) = true) :
    ∀ lids : List String,
      is_on_loan_go s lids = .ok
        (match activeLoanSpec s lids with
         | some l => (true, some l)
         | none => (false, none))
  | [] => rfl
  | lid :: rest => by
    rw [is_on_loan_go]
    cases hl : alookup lid ((alookup "loans" s).getD []) with
    | none =>
      have hr : resolveLoan s lid = none := by rw [resolveLoan, hl]
      rw [is_on_loan_go_eq s h rest]
      rw [activeLoanSpec, activeLoanSpec, List.filterMap_cons, hr]
    | some o =>
      obtain ⟨l, rfl⟩ := allLoans_lookup h hl
      have hr : resolveLoan s lid = some l := by rw [resolveLoan, hl]
      by_cases hs : l.status = "ACTIVE"
      · simp [Obj.truthy, hs, activeLoanSpec, List.filterMap_cons, hr]
      · simp [Obj.truthy, hs, activeLoanSpec, List.filterMap_cons, hr,
          is_on_loan_go_eq s h rest, activeLoanSpec]

theorem consChain (s : ShelfMap)
    (h : allConservations ((alookup "conservations" s).getD []) = true) :
    ∀ cids : List String,
      asConservationList
        (((cids.map (fun cid => alookup cid ((alookup "conservations" s).getD []))).filterMap
            id).filter Obj.truthy)
      = .ok (consListSpec s cids)
  | [] => rfl
  | cid :: rest => by
    cases hl : alookup cid ((alookup "conservations" s).getD []) with
    | none =>
      have hr : resolveConservation s cid = none := by rw [resolveConservation, hl]
      simpa [List.filterMap_cons, hl, hr, consListSpec] using consChain s h rest
    | some o =>
      obtain ⟨c, rfl⟩ := allConservations_lookup h hl
      have hr : resolveConservation s cid = some c := by rw [resolveConservation, hl]
      have ih := consChain s h rest
      simp only [List.filterMap_map, Function.id_comp] at ih
      simp [List.filterMap_cons, hl, hr, consListSpec, List.filter_cons, Obj.truthy,
        asConservationList, Obj.asConservation, ih]
      rfl

/-! ### Claims -/

/-- Claim C3: `current_version` returns the absence marker (`none`) when the
artifact owns no versions; otherwise it returns an owned version whose
timestamp is lexicographically greatest, and among equal greatest timestamps
the one occurring last in the insertion order of `versions` (the last element
of the filter on the maximal timestamp); for timestamps t1, t3, t2 inserted
in that order it returns the version timestamped t3. -/
theorem claim_C3_current_version (a : Artifact) :
    (a.versions = [] → a.current_version = none) ∧
    (a.versions ≠ [] → ∃ v, a.current_version = some v) ∧
    (∀ v, a.current_version = some v →
      v ∈ a.versions ∧ (∀ w ∈ a.versions, w.timestamp ≤ v.timestamp) ∧
      (a.versions.filter (fun w => decide (w.timestamp = v.timestamp))).getLast? = some v) ∧
    exVersionsArtifact.current_version =
      some { version_id := "ver2", timestamp := "t3", notes := "", snapshot := [] } := by
  refine ⟨?_, ?_, ?_, ?_⟩
  · intro h
    rw [Artifact.current_version, if_pos (by simp [h])]
  · intro h
    rw [Artifact.current_version, if_neg (by simpa using h), getLast?_pySorted]
    cases hm : lastMaxBy (fun v => v.timestamp) a.versions with
    | none => exact absurd ((lastMaxBy_eq_none_iff _).mp hm) h
    | some v => exact ⟨v, rfl⟩
  · intro v hv
    rw [Artifact.current_version] at hv
    by_cases hne : a.versions.isEmpty
    · rw [if_pos hne] at hv
      cases hv
    · rw [if_neg hne, getLast?_pySorted] at hv
      exact ⟨lastMaxBy_mem _ hv, lastMaxBy_ge _ hv, lastMaxBy_filter _ hv⟩
  · rfl

/-- Witness for C3: the t1/t3/t2 example has versions, and an artifact with
no versions resolves to the absence marker. -/
theorem claim_C3_witness :
    exVersionsArtifact.versions ≠ [] ∧
    (∃ v, exVersionsArtifact.current_version = some v) ∧
    baseArtifact.current_version = none := by
  refine ⟨by decide, ?_, ?_⟩
  · exact (claim_C3_current_version exVersionsArtifact).2.1 (by decide)
  · exact (claim_C3_current_version baseArtifact).1 rfl

/-- Claim C4: `is_on_loan` scans `artifact.loans` in list order, skips loan ids
that do not resolve in the loans collection, and returns the first resolved
loan with status ACTIVE together with a `true` flag (`activeLoanSpec` is
exactly that first match); when no referenced loan resolves to ACTIVE it
reports `(false, none)`.  Hypothesis: the loans collection holds `Loan`
records (otherwise the Python code raises on `loan.status`). -/
theorem claim_C4_is_on_loan (a : Artifact) (s : ShelfMap)
    (h : allLoans ((alookup "loans" s).getD []) = true) :
    a.is_on_loan s = .ok
      (match activeLoanSpec s a.loans with
       | some l => (true, some l)
       | none => (false, none)) ∧
    ((∀ l ∈ a.loans.filterMap (resolveLoan s), l.status ≠ "ACTIVE") →
      a.is_on_loan s = .ok (false, none)) := by
  refine ⟨is_on_loan_go_eq s h a.loans, ?_⟩
  intro hnone
  have hs : activeLoanSpec s a.loans = none := by
    rw [activeLoanSpec]
    apply List.find?_eq_none.mpr
    intro l hl
    simp [hnone l hl]
  have := is_on_loan_go_eq s h a.loans
  rw [hs] at this
  exact this

/-- Witness for C4: on a shelf with a COMPLETED loan and two ACTIVE loans,
an artifact referencing a dangling id, the COMPLETED loan and both ACTIVE
loans gets the first ACTIVE loan in list order. -/
theorem claim_C4_witness :
    allLoans ((alookup "loans" exResolverShelf).getD []) = true ∧
    exResolverArtifact.is_on_loan exResolverShelf = .ok (true, some exLoanActive1) := by
  constructor
  · decide
  · have h := (claim_C4_is_on_loan exResolverArtifact exResolverShelf (by decide)).1
    rw [h]
    rfl

theorem exceptBind_ok {ε α β : Type} (a : α) (f : α → Except ε β) :
    (Except.ok a : Except ε α) >>= f = f a := rfl

theorem exceptBind_error {ε α β : Type} (e : ε) (f : α → Except ε β) :
    (Except.error e : Except ε α) >>= f = Except.error e := rfl

theorem exceptPure {ε α : Type} (a : α) : (pure a : Except ε α) = Except.ok a := rfl

/-- Claim C5: `display_status` returns a flat record with exactly the
artifact's identifier and title, the on-loan flag and matching loan
identifier as computed by `is_on_loan` (absent identifier when not on loan),
the current version's identifier as computed by `current_version` (absent
with no versions), and the identifier of the conservation record with the
lexicographically greatest date string among the references that resolve in
the conservations collection (absent when none resolves).  Hypotheses: the
loans and conservations collections hold records of their entity type. -/
theorem claim_C5_display_status (a : Artifact) (s : ShelfMap)
    (hl : allLoans ((alookup "loans" s).getD []) = true)
    (hc : allConservations ((alookup "conservations" s).getD []) = true) :
    a.display_status s = .ok (display_status_spec a s) ∧
    (∀ c, lastMaxBy (fun c => c.date) (consListSpec s a.conservation_records) = some c →
      c ∈ consListSpec s a.conservation_records ∧
      ∀ d ∈ consListSpec s a.conservation_records, d.date ≤ c.date) ∧
    (consListSpec s a.conservation_records = [] →
      (display_status_spec a s).last_conservation = none) := by
  refine ⟨?_, fun c hm => ⟨lastMaxBy_mem _ hm, lastMaxBy_ge _ hm⟩, fun hnil => by
    simp [display_status_spec, hnil, lastMaxBy]⟩
  have h1 := is_on_loan_go_eq s hl a.loans
  have h2 := consChain s hc a.conservation_records
  rw [Artifact.display_status, Artifact.is_on_loan, h1]
  simp only [exceptBind_ok]
  by_cases hemp : a.conservation_records.isEmpty
  · have hrec : a.conservation_records = [] := by simpa using hemp
    cases hact : activeLoanSpec s a.loans with
    | none =>
      simp [hemp, exceptPure, exceptBind_ok, display_status_spec, hact, hrec,
        consListSpec, lastMaxBy]
    | some l =>
      simp [hemp, exceptPure, exceptBind_ok, display_status_spec, hact, hrec,
        consListSpec, lastMaxBy]
  · rw [if_neg hemp]
    cases hcrs :
        ((a.conservation_records.map
          (fun cid => alookup cid ((alookup "conservations" s).getD []))).filterMap
            id).filter Obj.truthy with
    | nil =>
      rw [hcrs] at h2
      simp only [asConservationList] at h2
      injection h2 with h3
      have hcl : consListSpec s a.conservation_records = [] := h3.symm
      cases hact : activeLoanSpec s a.loans with
      | none =>
        simp [exceptPure, exceptBind_ok, display_status_spec, hact, hcl, lastMaxBy]
      | some l =>
        simp [exceptPure, exceptBind_ok, display_status_spec, hact, hcl, lastMaxBy]
    | cons o rest =>
      rw [hcrs] at h2
      rw [h2]
      simp only [exceptBind_ok, exceptPure, List.isEmpty_cons, Bool.false_eq_true,
        if_false]
      rw [getLast?_pySorted]
      cases hact : activeLoanSpec s a.loans with
      | none => simp [display_status_spec, hact]
      | some l => simp [display_status_spec, hact]

/-- Witness for C5: at the concrete resolver shelf the status record reports
the first ACTIVE loan, the t3 version and the 2024 conservation record. -/
theorem claim_C5_witness :
    allLoans ((alookup "loans" exResolverShelf).getD []) = true ∧
    allConservations ((alookup "conservations" exResolverShelf).getD []) = true ∧
    exResolverArtifact.display_status exResolverShelf = .ok
      { artifact_id := "art_l", title := "Untitled", on_loan := true,
        loan_ref := some "loan_a1", current_version := some "ver2",
        last_conservation := some "cons2" } := by
  refine ⟨by decide, by decide, ?_⟩
  have h := (claim_C5_display_status exResolverArtifact exResolverShelf
    (by decide) (by decide)).1
  rw [h]
  rfl

/-- Claim C6: `get` with a string key never raises: on a missing collection or
missing key it returns the explicit absence marker (`record none`), with no
key it returns the whole collection dict, the empty dict when the collection
is missing. -/
theorem claim_C6_get_total (s : ShelfMap) (c k : String) :
    (alookup c s = none →
      SimpleOODB.get s c (.str k) = .ok (.record none) ∧
      SimpleOODB.get s c .noKey = .ok (.whole [])) ∧
    (∀ d, alookup c s = some d →
      SimpleOODB.get s c (.str k) = .ok (.record (alookup k d)) ∧
      SimpleOODB.get s c .noKey = .ok (.whole d)) ∧
    (∀ d, alookup c s = some d → alookup k d = none →
      SimpleOODB.get s c (.str k) = .ok (.record none)) := by
  refine ⟨fun h => ?_, fun d h => ?_, fun d h hk => ?_⟩
  · exact ⟨by simp [SimpleOODB.get, h, alookup], by simp [SimpleOODB.get, h, alookup]⟩
  · exact ⟨by simp [SimpleOODB.get, h], by simp [SimpleOODB.get, h]⟩
  · simp [SimpleOODB.get, h, hk]

/-- Witness for C6: a missing collection and a missing key on the concrete
query shelf both give the absence marker, and the no-key form gives the
whole (or empty) dict. -/
theorem claim_C6_witness :
    alookup "nothing" exQueryShelf = none ∧
    SimpleOODB.get exQueryShelf "nothing" (.str "x") = .ok (.record none) ∧
    SimpleOODB.get exQueryShelf "nothing" .noKey = .ok (.whole []) ∧
    SimpleOODB.get exQueryShelf "artifacts" (.str "missing") = .ok (.record none) := by
  have h1 := (claim_C6_get_total exQueryShelf "nothing" "x").1 (by decide)
  have h2 := (claim_C6_get_total exQueryShelf "artifacts" "missing").2.2
    [("art_oil", Obj.artifact exOilArtifact), ("art_t", Obj.artifact exTemperaArtifact)]
    rfl (by decide)
  exact ⟨by decide, h1.1, h1.2, h2⟩

/-- Claim C1: for every collection `c` present in the shelf, every key and
every record, `put(c, k, r)` followed by `get(c, k)` returns exactly `r`.
The record is stored before the secondary-index update runs, so the round
trip holds on the post-state even on the paths where `put` raises. -/
theorem claim_C1_put_get (s : ShelfMap) (c k : String) (r : Obj)
    (h : (alookup c s).isSome = true) :
    SimpleOODB.get (SimpleOODB.put s c k r).1 c (.str k) = .ok (.record (some r)) := by
  obtain ⟨col, hcol⟩ := Option.isSome_iff_exists.mp h
  rw [SimpleOODB.put, hcol]
  dsimp only
  by_cases hc : c = "artifacts"
  · subst hc
    rw [if_pos rfl]
    have hne : ("artifacts" : String) ≠ "indexes" := by decide
    split <;> try split <;> try split
    all_goals simp [SimpleOODB.get, alookup_ainsert_of_ne hne, alookup_ainsert_self]
  · rw [if_neg hc]
    simp [SimpleOODB.get, alookup_ainsert_self]

/-- Witness for C1: a round trip through the people collection of a freshly
opened store. -/
theorem claim_C1_witness :
    (alookup "people" (open_db [])).isSome = true ∧
    SimpleOODB.get (SimpleOODB.put (open_db []) "people" "p1"
        (Obj.person { person_id := "p1", name := "Arun Kumar", role := some "Restorer" })).1
      "people" (.str "p1") =
      .ok (.record (some (Obj.person
        { person_id := "p1", name := "Arun Kumar", role := some "Restorer" }))) :=
  ⟨by decide, claim_C1_put_get (open_db []) "people" "p1" _ (by decide)⟩

/-- Claim C9: the resolvers only behave as specified with the raw `_shelf`
mapping (as the demo passes `store._shelf`): with the `SimpleOODB` object
itself as `store`, `store.get('loans', {})` passes the dict `{}` as the
lookup key, so for every artifact with a non-empty loans list `is_on_loan`
(and hence `display_status`, which calls it first) raises `TypeError`
instead of returning a result. -/
theorem claim_C9_oodb_receiver (a : Artifact) (s : ShelfMap) (h : a.loans ≠ []) :
    a.is_on_loan_oodb s = .error .typeError ∧
    a.display_status_oodb s = .error .typeError := by
  obtain ⟨lid, rest, hcons⟩ : ∃ lid rest, a.loans = lid :: rest := by
    cases hl : a.loans with
    | nil => exact absurd hl h
    | cons x xs => exact ⟨x, xs, rfl⟩
  have h1 : a.is_on_loan_oodb s = .error .typeError := by
    rw [Artifact.is_on_loan_oodb, hcons]
    rfl
  refine ⟨h1, ?_⟩
  rw [Artifact.display_status_oodb, h1]
  rfl

/-- Witness for C9: the concrete resolver artifact has loans, and both
resolvers raise when handed the store object instead of its raw mapping. -/
theorem claim_C9_witness :
    exResolverArtifact.loans ≠ [] ∧
    exResolverArtifact.is_on_loan_oodb exResolverShelf = .error .typeError ∧
    exResolverArtifact.display_status_oodb exResolverShelf = .error .typeError := by
  have h := claim_C9_oodb_receiver exResolverArtifact exResolverShelf (by decide)
  exact ⟨by decide, h.1, h.2⟩

/-! ### Which collections exist: `put` never creates one, `_open_db` makes
exactly the seven -/

theorem alookup_put_none {s : ShelfMap} {c : String} (hc : alookup c s = none)
    (col k : String) (r : Obj) : alookup c (SimpleOODB.put s col k r).1 = none := by
  cases hcol : alookup col s with
  | none =>
    rw [SimpleOODB.put, hcol]
    exact hc
  | some colD =>
    rw [SimpleOODB.put, hcol]
    dsimp only
    have hne : c ≠ col := by
      intro he
      rw [he, hcol] at hc
      cases hc
    have hs1 : alookup c (ainsert col (ainsert k r colD) s) = none := by
      rw [alookup_ainsert_of_ne hne]
      exact hc
    by_cases hart : col = "artifacts"
    · subst hart
      rw [if_pos rfl]
      split
      · exact hs1
      · rename_i idxCol hidx
        have hci : c ≠ "indexes" := by
          intro he
          rw [← he] at hidx
          rw [hs1] at hidx
          cases hidx
        split <;> try split
        all_goals simp [alookup_ainsert_of_ne hci, hs1]
    · rw [if_neg hart]
      exact hs1

theorem alookup_ensureCol_ne {c col : String} (hne : c ≠ col) (acc : ShelfMap) :
    alookup c (ensureCol acc col) = alookup c acc := by
  rw [ensureCol]
  split
  · exact alookup_ainsert_of_ne hne [] acc
  · rfl

theorem alookup_foldl_ensure_ne {c : String} :
    ∀ (cols : List String), c ∉ cols → ∀ acc : ShelfMap,
      alookup c (cols.foldl ensureCol acc) = alookup c acc
  | [], _, acc => rfl
  | col :: cols, h, acc => by
    rw [List.foldl_cons]
    have hne : c ≠ col := fun he => h (he ▸ List.mem_cons_self _ _)
    rw [alookup_foldl_ensure_ne cols (fun hm => h (List.mem_cons_of_mem _ hm)) _,
      alookup_ensureCol_ne hne]

theorem alookup_open_db_ne {c : String} (hc : c ∉ collectionNames) (s : ShelfMap) :
    alookup c (open_db s) = alookup c s := by
  have hci : c ≠ "indexes" := by
    intro he
    exact hc (by rw [he]; decide)
  rw [open_db]
  split
  · exact alookup_foldl_ensure_ne _ hc _
  · split
    · rw [alookup_ainsert_of_ne hci]
      exact alookup_foldl_ensure_ne _ hc _
    · exact alookup_foldl_ensure_ne _ hc _

theorem alookup_foldl_put_none {c : String} :
    ∀ (ops : List (String × String × Obj)) (s : ShelfMap), alookup c s = none →
      alookup c (ops.foldl applyPut s) = none
  | [], _, h => h
  | op :: ops, s, h => by
    rw [List.foldl_cons]
    exact alookup_foldl_put_none ops _ (alookup_put_none h op.1 op.2.1 op.2.2)

/-- Claim C10: on every shelf reachable by opening a fresh store and running
any sequence of `put` calls, a collection name outside the seven fixed ones
is absent; `put` on it raises `KeyError` and leaves the state unchanged,
while `get` on the same absent collection returns the absence marker. -/
theorem claim_C10_put_missing_collection (ops : List (String × String × Obj))
    (c k : String) (r : Obj) (hc : c ∉ collectionNames) :
    alookup c (reachableShelf ops) = none ∧
    SimpleOODB.put (reachableShelf ops) c k r = (reachableShelf ops, some .keyError) ∧
    SimpleOODB.get (reachableShelf ops) c (.str k) = .ok (.record none) := by
  have habs : alookup c (reachableShelf ops) = none := by
    refine alookup_foldl_put_none ops _ ?_
    rw [alookup_open_db_ne hc]
    rfl
  refine ⟨habs, ?_, by simp [SimpleOODB.get, habs, alookup]⟩
  rw [SimpleOODB.put, habs]

/-- Witness for C10: the name surrogates (the source uses digital) is not
among the seven, and a put to it on a fresh store fails with KeyError. -/
theorem claim_C10_witness :
    "surrogates" ∉ collectionNames ∧
    SimpleOODB.put (reachableShelf []) "surrogates" "d1"
        (Obj.surrogate ⟨"d1", "f.tif", "tif", none⟩)
      = (reachableShelf [], some .keyError) := by
  have h := claim_C10_put_missing_collection [] "surrogates" "d1"
    (Obj.surrogate ⟨"d1", "f.tif", "tif", none⟩) (by decide)
  exact ⟨by decide, h.2.1⟩

theorem alookup_ensureCol_preserved {c : String} {d : Dict} (acc : ShelfMap) (col : String)
    (h : alookup c acc = some d) : alookup c (ensureCol acc col) = some d := by
  rw [ensureCol]
  split
  · rename_i hnone
    have hne : c ≠ col := by
      intro he
      subst he
      rw [h] at hnone
      simp at hnone
    rw [alookup_ainsert_of_ne hne]
    exact h
  · exact h

theorem alookup_foldl_ensure_preserved {c : String} {d : Dict} :
    ∀ (cols : List String) (acc : ShelfMap), alookup c acc = some d →
      alookup c (cols.foldl ensureCol acc) = some d
  | [], _, h => h
  | col :: cols, acc, h => by
    rw [List.foldl_cons]
    exact alookup_foldl_ensure_preserved cols _ (alookup_ensureCol_preserved acc col h)

theorem alookup_foldl_ensure_isSome {c : String} :
    ∀ (cols : List String) (acc : ShelfMap), c ∈ cols →
      ∃ d, alookup c (cols.foldl ensureCol acc) = some d
  | [], _, h => absurd h (by simp)
  | col :: cols, acc, h => by
    rw [List.foldl_cons]
    by_cases hcc : c ∈ cols
    · exact alookup_foldl_ensure_isSome cols _ hcc
    · have hce : c = col := by
        rcases List.mem_cons.mp h with h1 | h1
        · exact h1
        · exact absurd h1 hcc
      subst hce
      have hstep : ∃ d, alookup c (ensureCol acc c) = some d := by
        rw [ensureCol]
        split
        · exact ⟨[], alookup_ainsert_self c [] acc⟩
        · rename_i hn
          cases hd : alookup c acc with
          | none => rw [hd] at hn; simp at hn
          | some d => exact ⟨d, rfl⟩
      obtain ⟨d, hd⟩ := hstep
      exact ⟨d, alookup_foldl_ensure_preserved cols _ hd⟩

theorem alookup_foldl_ensure_new {c : String} :
    ∀ (cols : List String) (acc : ShelfMap), c ∈ cols → alookup c acc = none →
      alookup c (cols.foldl ensureCol acc) = some []
  | [], _, h, _ => absurd h (by simp)
  | col :: cols, acc, h, hn => by
    rw [List.foldl_cons]
    by_cases hce : c = col
    · subst hce
      have hd : alookup c (ensureCol acc c) = some [] := by
        rw [ensureCol, if_pos (by simp [hn])]
        exact alookup_ainsert_self c [] acc
      exact alookup_foldl_ensure_preserved cols _ hd
    · have hmem : c ∈ cols := by
        rcases List.mem_cons.mp h with h1 | h1
        · exact absurd h1 hce
        · exact h1
      have hkeep : alookup c (ensureCol acc col) = none := by
        rw [alookup_ensureCol_ne hce]
        exact hn
      exact alookup_foldl_ensure_new cols _ hmem hkeep

theorem open_db_isSome {c : String} (hc : c ∈ collectionNames) (s : ShelfMap) :
    ∃ d, alookup c (open_db s) = some d := by
  obtain ⟨d, hd⟩ := alookup_foldl_ensure_isSome collectionNames s hc
  rw [open_db]
  split
  · exact ⟨d, hd⟩
  · split
    · by_cases hce : c = "indexes"
      · subst hce
        exact ⟨_, alookup_ainsert_self _ _ _⟩
      · rw [alookup_ainsert_of_ne hce]
        exact ⟨d, hd⟩
    · exact ⟨d, hd⟩

theorem open_db_absent_default {c : String} (hc : c ∈ collectionNames)
    (hcne : c ≠ "indexes") (s : ShelfMap) (h : alookup c s = none) :
    alookup c (open_db s) = some [] := by
  have hd := alookup_foldl_ensure_new collectionNames s hc h
  rw [open_db]
  split
  · exact hd
  · split
    · rw [alookup_ainsert_of_ne hcne]
      exact hd
    · exact hd

theorem open_db_indexes_absent (s : ShelfMap) (h : alookup "indexes" s = none) :
    alookup "indexes" (open_db s) = some [("by_title", Obj.strMap [])] := by
  have hd := @alookup_foldl_ensure_new "indexes" collectionNames s (by decide) h
  rw [open_db]
  split
  · rename_i hnone
    rw [hd] at hnone
    cases hnone
  · rename_i idx hidx
    rw [hd] at hidx
    cases hidx
    split
    · exact alookup_ainsert_self _ _ _
    · rename_i hbtn
      simp [alookup] at hbtn

theorem open_db_by_title (s : ShelfMap) :
    ∃ idx, alookup "indexes" (open_db s) = some idx ∧
      (alookup "by_title" idx).isSome = true := by
  obtain ⟨d, hd⟩ := @alookup_foldl_ensure_isSome "indexes" collectionNames s (by decide)
  rw [open_db]
  split
  · rename_i hn
    rw [hd] at hn
    cases hn
  · rename_i idx hidx
    split
    · refine ⟨_, alookup_ainsert_self _ _ _, ?_⟩
      rw [alookup_ainsert_self]
      rfl
    · rename_i hbt
      refine ⟨idx, hidx, ?_⟩
      cases hh : alookup "by_title" idx with
      | none => rw [hh] at hbt; simp at hbt
      | some o => rfl

theorem open_db_preserves_entry {c : String} {d : Dict} {k : String} {o : Obj} (s : ShelfMap)
    (hcd : alookup c s = some d) (hk : alookup k d = some o) :
    ∃ d2, alookup c (open_db s) = some d2 ∧ alookup k d2 = some o := by
  have hd := alookup_foldl_ensure_preserved collectionNames s hcd
  rw [open_db]
  split
  · exact ⟨d, hd, hk⟩
  · rename_i idx hidx
    split
    · rename_i hbt
      by_cases hce : c = "indexes"
      · subst hce
        rw [hd] at hidx
        cases hidx
        refine ⟨_, alookup_ainsert_self _ _ _, ?_⟩
        have hkb : k ≠ "by_title" := by
          intro he
          subst he
          rw [hk] at hbt
          simp at hbt
        rw [alookup_ainsert_of_ne hkb]
        exact hk
      · rw [alookup_ainsert_of_ne hce]
        exact ⟨d, hd, hk⟩
    · exact ⟨d, hd, hk⟩

theorem open_db_titleIndex_preserved (s : ShelfMap) {o : Obj}
    (h : titleIndex s = some o) : titleIndex (open_db s) = some o := by
  rw [titleIndex] at h
  cases hidx : alookup "indexes" s with
  | none =>
    rw [hidx] at h
    cases h
  | some idx =>
    rw [hidx] at h
    simp only [Option.some_bind] at h
    obtain ⟨d2, hd2, hk2⟩ := open_db_preserves_entry s hidx h
    rw [titleIndex, hd2]
    simpa using hk2

theorem foldl_ensure_of_isSome :
    ∀ (cols : List String) (acc : ShelfMap),
      (∀ col ∈ cols, (alookup col acc).isSome = true) → cols.foldl ensureCol acc = acc
  | [], _, _ => rfl
  | col :: cols, acc, h => by
    rw [List.foldl_cons]
    obtain ⟨d, hd⟩ := Option.isSome_iff_exists.mp (h col (List.mem_cons_self _ _))
    have h1 : ensureCol acc col = acc := by
      rw [ensureCol, hd]
      simp
    rw [h1]
    exact foldl_ensure_of_isSome cols acc (fun c hc => h c (List.mem_cons_of_mem _ hc))

theorem open_db_idem (s : ShelfMap) : open_db (open_db s) = open_db s := by
  have h7 : ∀ col ∈ collectionNames, (alookup col (open_db s)).isSome = true := by
    intro col hcol
    obtain ⟨d, hd⟩ := open_db_isSome hcol s
    rw [hd]
    rfl
  obtain ⟨idx, hidx, hbt⟩ := open_db_by_title s
  obtain ⟨o, ho⟩ := Option.isSome_iff_exists.mp hbt
  rw [open_db, foldl_ensure_of_isSome collectionNames (open_db s) h7, hidx]
  dsimp only
  rw [ho]
  rfl

/-- Claim C8: opening the store ensures each of the seven fixed collections
exists (a collection absent before, other than `indexes`, becomes the empty
dict; an absent `indexes` becomes the dict holding only the empty title
index), ensures the title index exists under `indexes`, and is idempotent on
an already-populated store: every record present in any collection is kept
unchanged, the title index value is kept unchanged, and reopening changes
nothing. -/
theorem claim_C8_open_db (s : ShelfMap) :
    (∀ c ∈ collectionNames, ∃ d, alookup c (open_db s) = some d) ∧
    (∀ c ∈ collectionNames, c ≠ "indexes" → alookup c s = none →
      alookup c (open_db s) = some []) ∧
    (alookup "indexes" s = none →
      alookup "indexes" (open_db s) = some [("by_title", Obj.strMap [])]) ∧
    (∃ idx, alookup "indexes" (open_db s) = some idx ∧
      (alookup "by_title" idx).isSome = true) ∧
    (∀ c d k o, alookup c s = some d → alookup k d = some o →
      ∃ d2, alookup c (open_db s) = some d2 ∧ alookup k d2 = some o) ∧
    (∀ o, titleIndex s = some o → titleIndex (open_db s) = some o) ∧
    open_db (open_db s) = open_db s :=
  ⟨fun _ hc => open_db_isSome hc s,
   fun _ hc hne h => open_db_absent_default hc hne s h,
   fun h => open_db_indexes_absent s h,
   open_db_by_title s,
   fun _ _ _ _ hcd hk => open_db_preserves_entry s hcd hk,
   fun _ h => open_db_titleIndex_preserved s h,
   open_db_idem s⟩

/-- Witness for C8: on the empty shelf all seven collections appear (people
defaults to empty), reopening is the identity, and a record stored in a
pre-populated shelf survives opening. -/
theorem claim_C8_witness :
    (∃ d, alookup "artifacts" (open_db []) = some d) ∧
    alookup "people" (open_db []) = some [] ∧
    open_db (open_db []) = open_db [] ∧
    (∃ d2, alookup "loans" (open_db exResolverShelf) = some d2 ∧
      alookup "loan_a1" d2 = some (Obj.loan exLoanActive1)) := by
  refine ⟨(claim_C8_open_db []).1 "artifacts" (by decide),
    (claim_C8_open_db []).2.1 "people" (by decide) (by decide) rfl,
    (claim_C8_open_db []).2.2.2.2.2.2, ?_⟩
  exact (claim_C8_open_db exResolverShelf).2.2.2.2.1 "loans" _ "loan_a1"
    (Obj.loan exLoanActive1) rfl (by decide)

/-! ### The material query -/

theorem allArtifacts_values {d : Dict} (h : allArtifacts d = true) :
    ∀ o ∈ avalues d, ∃ a, o = Obj.artifact a := by
  intro o ho
  obtain ⟨kv, hkv, rfl⟩ := List.mem_map.mp ho
  have hp := List.all_eq_true.mp h kv hkv
  rcases kv with ⟨key, o⟩
  cases o <;> simp_all [allArtifacts]

theorem materialScan_eq (m : String) :
    ∀ (l : List Obj), (∀ o ∈ l, ∃ a, o = Obj.artifact a) →
      materialScan m l = .ok (l.filter (materialMatch m))
  | [], _ => rfl
  | o :: rest, h => by
    obtain ⟨a, rfl⟩ := h o (List.mem_cons_self _ _)
    have ih := materialScan_eq m rest (fun x hx => h x (List.mem_cons_of_mem _ hx))
    cases hm : a.material with
    | none => simp [materialScan, hm, ih, List.filter_cons, materialMatch]
    | some mat =>
      by_cases hemp : mat = ""
      · subst hemp
        simp [materialScan, hm, ih, List.filter_cons, materialMatch]
      · by_cases hin : pyIn (pyLower m) (pyLower mat)
        · simp [materialScan, hm, hemp, hin, ih, List.filter_cons, materialMatch,
            exceptBind_ok]
        · simp [materialScan, hm, hemp, hin, ih, List.filter_cons, materialMatch]

/-- Counterexample to C7 as stated: an artifact whose material is present
(the empty string) and contains the query `""` as a substring is nonetheless
not returned, because Python's truthiness test `if a.material` drops the
empty string. -/
theorem claim_C7_counterexample :
    exEmptyMaterialArtifact.material = some "" ∧
    pyIn (pyLower "") (pyLower "") = true ∧
    alookup "art_e" ((alookup "artifacts" exEmptyMaterialShelf).getD []) =
      some (Obj.artifact exEmptyMaterialArtifact) ∧
    SimpleOODB.query_artifacts_by_material exEmptyMaterialShelf "" = .ok [] :=
  ⟨rfl, rfl, rfl, rfl⟩

/-- Claim C7 (amended): `query_artifacts_by_material(m)` returns exactly those
records of the artifacts collection, in collection order, whose material is
present, non-empty, and contains `m` as a case-insensitive substring
(`materialMatch`); artifacts with an absent material are never returned.
Querying oil over one oil-on-canvas and one tempera artifact returns exactly
the first.  Hypothesis: the artifacts collection holds `Artifact` records
(otherwise `a.material` raises). -/
theorem claim_C7_query_material (s : ShelfMap) (m : String) (d : Dict)
    (hd : alookup "artifacts" s = some d) (hall : allArtifacts d = true) :
    SimpleOODB.query_artifacts_by_material s m = .ok ((avalues d).filter (materialMatch m)) ∧
    SimpleOODB.query_artifacts_by_material exQueryShelf "oil" =
      .ok [Obj.artifact exOilArtifact] := by
  constructor
  · rw [SimpleOODB.query_artifacts_by_material, hd]
    exact materialScan_eq m (avalues d) (allArtifacts_values hall)
  · rfl

/-- Witness for C7 at the oil/tempera example collection. -/
theorem claim_C7_witness :
    alookup "artifacts" exQueryShelf =
      some [("art_oil", Obj.artifact exOilArtifact), ("art_t", Obj.artifact exTemperaArtifact)] ∧
    allArtifacts
      [("art_oil", Obj.artifact exOilArtifact), ("art_t", Obj.artifact exTemperaArtifact)] = true ∧
    SimpleOODB.query_artifacts_by_material exQueryShelf "oil" =
      .ok ((avalues [("art_oil", Obj.artifact exOilArtifact),
        ("art_t", Obj.artifact exTemperaArtifact)]).filter (materialMatch "oil")) ∧
    SimpleOODB.query_artifacts_by_material exQueryShelf "oil" =
      .ok [Obj.artifact exOilArtifact] := by
  have h := claim_C7_query_material exQueryShelf "oil"
    [("art_oil", Obj.artifact exOilArtifact), ("art_t", Obj.artifact exTemperaArtifact)]
    rfl (by decide)
  exact ⟨rfl, by decide, h.1, h.2⟩

/-! ### The title index under `put` -/

/-- Counterexample to C2 as stated: `put('indexes', 'by_title', r)` is a put
on a collection other than `artifacts`, yet it replaces the title index
itself, so the title index does not stay unchanged. -/
theorem claim_C2_counterexample :
    titleIndex (SimpleOODB.put (open_db []) "indexes" "by_title"
      (Obj.strMap [("portrait", "art_1")])).1 ≠ titleIndex (open_db []) := by
  decide

/-- Claim C2 (amended): on a store whose `artifacts` and `indexes` collections
exist and whose `by_title` slot is absent or holds a dict (every store built
by this program satisfies this), `put('artifacts', k, a)` makes the title
index map `lower(a.title)` to `k`; and a put on any collection other than
`artifacts` leaves the title index unchanged, unless it targets the
`indexes` collection under the key `by_title` itself, which overwrites the
whole index (see the counterexample). -/
theorem claim_C2_title_index (s : ShelfMap) (k : String) (art : Artifact)
    (hart : (alookup "artifacts" s).isSome = true)
    (hidx : (alookup "indexes" s).isSome = true)
    (hbt : byTitleOk s = true) :
    titleLookup (SimpleOODB.put s "artifacts" k (Obj.artifact art)).1 (pyLower art.title) =
      some k ∧
    (∀ (c key : String) (r : Obj), c ≠ "artifacts" →
      ¬(c = "indexes" ∧ key = "by_title") →
      titleIndex (SimpleOODB.put s c key r).1 = titleIndex s) := by
  constructor
  · obtain ⟨colA, hcolA⟩ := Option.isSome_iff_exists.mp hart
    obtain ⟨idxC, hidxC⟩ := Option.isSome_iff_exists.mp hidx
    have hne : ("indexes" : String) ≠ "artifacts" := by decide
    rw [SimpleOODB.put, hcolA]
    dsimp only
    rw [if_pos rfl]
    have hidx1 : alookup "indexes" (ainsert "artifacts" (ainsert k (Obj.artifact art) colA) s)
        = some idxC := by
      rw [alookup_ainsert_of_ne hne]
      exact hidxC
    rw [hidx1]
    dsimp only [Obj.titleAttr]
    cases hbto : alookup "by_title" idxC with
    | none =>
      simp [titleLookup, titleIndex, alookup_ainsert_self]
    | some o =>
      have hom : ∃ mm, o = Obj.strMap mm := by
        rw [byTitleOk, titleIndex, hidxC] at hbt
        simp only [Option.some_bind] at hbt
        rw [hbto] at hbt
        cases o <;> simp_all
      obtain ⟨mm, rfl⟩ := hom
      simp [hbto, titleLookup, titleIndex, alookup_ainsert_self]
  · intro c key r hcA hcKey
    cases hcol : alookup c s with
    | none =>
      rw [SimpleOODB.put, hcol]
    | some col =>
      rw [SimpleOODB.put, hcol]
      dsimp only
      rw [if_neg hcA]
      by_cases hci : c = "indexes"
      · subst hci
        have hkey : key ≠ "by_title" := fun hk => hcKey ⟨rfl, hk⟩
        rw [titleIndex, titleIndex, alookup_ainsert_self, hcol]
        simp only [Option.some_bind]
        rw [alookup_ainsert_of_ne (Ne.symm hkey)]
      · dsimp only
        rw [titleIndex, titleIndex, alookup_ainsert_of_ne (Ne.symm hci)]

/-- Witness for C2: on a fresh store, putting the Portrait of Marina
artifact indexes its lower-cased title, and a put to the people collection
leaves the title index unchanged. -/
theorem claim_C2_witness :
    ((alookup "artifacts" (open_db [])).isSome = true ∧
      (alookup "indexes" (open_db [])).isSome = true ∧
      byTitleOk (open_db []) = true) ∧
    titleLookup (SimpleOODB.put (open_db []) "artifacts" "art_1"
      (Obj.artifact exOilArtifact)).1 (pyLower "Portrait of Marina") = some "art_1" ∧
    titleIndex (SimpleOODB.put (open_db []) "people" "p1"
      (Obj.person ⟨"p1", "Arun Kumar", none⟩)).1 = titleIndex (open_db []) := by
  have h := claim_C2_title_index (open_db []) "art_1" exOilArtifact
    (by decide) (by decide) (by decide)
  exact ⟨⟨by decide, by decide, by decide⟩, h.1,
    h.2 "people" "p1" (Obj.person ⟨"p1", "Arun Kumar", none⟩) (by decide) (by simp)⟩
